import Mathlib

/-!
Verification of the hw5800 Honeywell 5800 receiver core (src/hw5800.rs,
src/devices.rs, src/main.rs).

The Rust code is shallowly embedded below.  `f32` arithmetic is modelled by
exact rational arithmetic (`ℚ`); every concrete input used in a theorem keeps
all intermediate `f32` values integral (or with power-of-two denominator)
and below 2^24, where `f32` computation is exact, so the model and the
machine computation agree on those inputs.  `u8`/`u16`/`u32` values are `Nat`
with explicit `% 2^w` where the source can wrap.  Rust panics are modelled as
`Option` or dedicated outcome constructors.
-/

set_option allowUnsafeReducibility true
attribute [semireducible] Rat.add Rat.mul Rat.div Rat.sub Rat.neg Rat.inv

namespace Hw5800

set_option maxRecDepth 400000

/-! ### CRC-16 BUYPASS

Models the external `crc16` crate's `BUYPASS` algorithm used by `fn crc` in
hw5800.rs: polynomial 0x8005, initial value 0, no reflection, no final xor,
processing each byte most-significant-bit first. -/

/-- One shift-and-conditionally-xor round of the MSB-first CRC-16/BUYPASS. -/
def crcRound (c : Nat) : Nat :=
  if c &&& 0x8000 ≠ 0 then ((c <<< 1) ^^^ 0x8005) % 65536 else (c <<< 1) % 65536

/-- Fold one input byte into the running CRC state. -/
def crcUpdateByte (c b : Nat) : Nat := crcRound^[8] (c ^^^ ((b % 256) <<< 8))

/-- `fn crc(b: &[u8]) -> u16` from hw5800.rs: CRC-16/BUYPASS of a byte slice. -/
def crc (bs : List Nat) : Nat := bs.foldl crcUpdateByte 0

/-! ### Status value type -/

/-- `struct HW5800Status { id: u32, bits: u8 }` from hw5800.rs. -/
structure HW5800Status where
  id : Nat
  bits : Nat
  deriving DecidableEq

/-- `HW5800Status::new(m: &[u8])` from hw5800.rs.  The source asserts
`m.len() > 3` and otherwise builds
`id = (m[0] << 16) + (m[1] << 8) + m[2]`, `bits = m[3]`; the panic of a
failed assertion is modelled as `none`.  Elements of `m` model `u8` values
(`< 256`), under which the `u32` arithmetic cannot wrap. -/
def HW5800Status.new (m : List Nat) : Option HW5800Status :=
  if m.length > 3 then
    some ⟨(m.getD 0 0) * 65536 + (m.getD 1 0) * 256 + m.getD 2 0, m.getD 3 0⟩
  else none

/-! ### Decoder state -/

/-- `struct Peak { hi: bool, dur: usize }` from hw5800.rs. -/
structure Peak where
  hi : Bool
  dur : Nat
  deriving DecidableEq

/-- The mutable state of `struct HW5800` from hw5800.rs (the callback is
factored out: every step below returns the list of statuses passed to it,
in order). -/
structure PipeState where
  current : List (ℚ × ℚ)
  buffer : List ℚ
  lst : Peak
  cur : Peak
  onCut : Bool
  msg : List Bool
  deriving DecidableEq

/-- `max_count` from `HW5800::new`. -/
def maxCount : Nat := 19
/-- `peak_dur` from `HW5800::new`. -/
def peakDur : Nat := 10
/-- `max_buffer` from `HW5800::new`. -/
def maxBuffer : Nat := 128
/-- `threshold` from `HW5800::new`. -/
def threshold : ℚ := 250

/-- The initial state built by `HW5800::new`: note the sample accumulator
`current` is seeded with a single `(0., 0.)` sample. -/
def initState : PipeState :=
  { current := [((0 : ℚ), (0 : ℚ))]
    buffer := []
    lst := ⟨true, 0⟩
    cur := ⟨false, 0⟩
    onCut := true
    msg := [] }

/-! ### Bit-queue readers -/

/-- `fn message_begin(&self) -> u8` from hw5800.rs: the first (up to) 8 queue
bits assembled MSB-first into a byte. -/
def messageBegin (q : List Bool) : Nat :=
  (q.take 8).foldl (fun acc b => (acc * 2 + (if b then 1 else 0)) % 256) 0

/-- The loop of `fn message`: walk the first 48 queue bits with their index,
assembling bytes MSB-first; returns the bytes pushed inside the loop together
with the final accumulator value. -/
def msgBytesAux : List Bool → Nat → Nat → List Nat × Nat
  | [], _, acc => ([], acc)
  | b :: bs, i, acc =>
    let acc2 := (acc * 2 + (if b then 1 else 0)) % 256
    if i % 8 = 7 then
      let r := msgBytesAux bs (i + 1) 0
      (acc2 :: r.1, r.2)
    else
      msgBytesAux bs (i + 1) acc2

/-- `fn message(&self) -> Vec<u8>` from hw5800.rs: peek the first 48 queue
bits MSB-first into bytes; when the queue length is not a multiple of 8 the
final accumulator is left-shifted and pushed as an extra byte. -/
def message (q : List Bool) : List Nat :=
  let r := msgBytesAux (q.take 48) 0 0
  if q.length % 8 ≠ 0 then r.1 ++ [(r.2 * 2 ^ (7 - q.length % 8)) % 256] else r.1

/-! ### Framer -/

/-- One iteration of the scanning loop `while self.msg.len() >= 7 * 8` in
`averaged_sample`: returns the queue after the iteration and the statuses
emitted by it.  The caller guarantees the queue holds at least 56 bits. -/
def framerIter (q : List Bool) : List Bool × List HW5800Status :=
  match q with
  | [] => ([], [])
  | b :: rest =>
    if b = false then (rest, [])
    else if messageBegin q ≠ 0xFE then (rest, [])
    else
      let q8 := q.drop 8
      let m := message q8
      if m.getD 4 0 = 0 ∧ m.getD 5 0 = 0 then (q8.drop 1, [])
      else
        let c := crc (m.take 4)
        if m.getD 4 0 = c / 256 ∧ m.getD 5 0 = c % 256 then
          (q8.drop 48, (HW5800Status.new m).toList)
        else (q8.drop 1, [])

/-- The scanning loop `while self.msg.len() >= 7 * 8 { ... }` from
`averaged_sample`, written with explicit fuel so that it evaluates
structurally: repeatedly runs `framerIter` while at least 56 bits remain,
collecting every emitted status in order.  Since every iteration pops at
least one bit (`framerIter_length_lt` below), fuel `q.length` always
suffices, and `framerLoop` is the exact loop. -/
def framerLoopAux : Nat → List Bool → List Bool × List HW5800Status
  | 0, q => (q, [])
  | n + 1, q =>
    if q.length < 7 * 8 then (q, [])
    else
      let r := framerIter q
      let r2 := framerLoopAux n r.1
      (r2.1, r.2 ++ r2.2)

/-- The scanning loop of `averaged_sample`, run to completion. -/
def framerLoop (q : List Bool) : List Bool × List HW5800Status :=
  framerLoopAux q.length q

/-- The bit queue as it stands at the start of the scanning loop's `k`-th
iteration: the initial queue transformed by `k` framer iterations. -/
def framerQueueAt (k : Nat) (q : List Bool) : List Bool :=
  (fun l => (framerIter l).1)^[k] q

/-! ### Peak tracker and bit decoder -/

/-- `fn transition(&mut self)` from hw5800.rs, acting on the completed peak
`cur`, the `on_cut` flag and the bit queue: when on cut, the completed peak's
polarity is pushed; `on_cut` is toggled by a short peak and forced true by a
full-length one. -/
def transitionF (cur : Peak) (onCut : Bool) (msg : List Bool) :
    List Bool × Bool :=
  (if onCut then msg ++ [cur.hi] else msg,
   if cur.dur < peakDur then !onCut else true)

/-- The body of `while let Some(v) = self.buffer.pop_front()` in
`averaged_sample`: classify `v` against the window mean (reused as the
median), extend the current peak, fold a spurious short peak back, or emit a
transition. -/
def trackStep (median : ℚ) (s : PipeState) (v : ℚ) : PipeState :=
  if decide (v > median) = s.cur.hi then
    { s with cur := { s.cur with dur := s.cur.dur + 1 } }
  else if s.cur.dur < 3 then
    let lst2 : Peak := { s.lst with dur := s.lst.dur + s.cur.dur + 1 }
    { s with lst := lst2, cur := lst2 }
  else
    let t := transitionF s.cur s.onCut s.msg
    { s with msg := t.1, onCut := t.2, lst := s.cur,
             cur := ⟨decide (v > median), 1⟩ }

/-- `fn averaged_sample(&mut self, sample: f32)` from hw5800.rs: buffer the
power sample; once `max_buffer` samples are held, either discard a
low-energy window or drain it through the peak tracker and then run the
framer on the bit queue. -/
def averagedSample (s : PipeState) (x : ℚ) : PipeState × List HW5800Status :=
  let b := s.buffer ++ [x]
  if b.length ≥ maxBuffer then
    let avg : ℚ := b.sum / (b.length : ℚ)
    if avg < threshold then ({ s with buffer := [] }, [])
    else
      let median : ℚ := b.sum / (b.length : ℚ)
      let s1 := b.foldl (fun t v => trackStep median t v) { s with buffer := [] }
      let r := framerLoop s1.msg
      ({ s1 with msg := r.1 }, r.2)
  else ({ s with buffer := b }, [])

/-- `fn add_sample(&mut self, real: f32, imag: f32)` from hw5800.rs: collect
raw I/Q samples; every time the accumulator reaches `max_count` entries,
forward the squared magnitude of the mean to `averaged_sample` and clear. -/
def addSample (s : PipeState) (p : ℚ × ℚ) : PipeState × List HW5800Status :=
  let c2 := s.current ++ [p]
  if c2.length = maxCount then
    let r1 := c2.foldl (fun a b => (a.1 + b.1, a.2 + b.2)) ((0 : ℚ), (0 : ℚ))
    let l : ℚ := (c2.length : ℚ)
    averagedSample { s with current := [] } ((r1.1 / l) ^ 2 + (r1.2 / l) ^ 2)
  else ({ s with current := c2 }, [])

/-- The producer loop from main.rs: push each `(real, imag)` pair through
`add_sample` in order, accumulating every status handed to the callback. -/
def feed : PipeState → List HW5800Status → List (ℚ × ℚ) →
    PipeState × List HW5800Status
  | s, out, [] => (s, out)
  | s, out, p :: ps =>
    let r := addSample s p
    feed r.1 (out ++ r.2) ps

/-- Feed a stream of already-decimated power samples through
`averaged_sample` in order, accumulating every status handed to the
callback. -/
def feedPow : PipeState → List HW5800Status → List ℚ →
    PipeState × List HW5800Status
  | s, out, [] => (s, out)
  | s, out, x :: xs =>
    let r := averagedSample s x
    feedPow r.1 (out ++ r.2) xs

/-! ### The decimator stage of `add_sample`, in isolation -/

/-- The decimation stage of `fn add_sample`, with the downstream call to
`averaged_sample` abstracted as an emitted value: push the pair, and when
`max_count` entries are held, emit the squared magnitude of the mean and
clear.  `addSample_decimStep` below proves this is exactly the decimator
stage of `addSample`. -/
def decimStep (cur : List (ℚ × ℚ)) (p : ℚ × ℚ) : List (ℚ × ℚ) × Option ℚ :=
  let c2 := cur ++ [p]
  if c2.length = maxCount then
    let r1 := c2.foldl (fun a b => (a.1 + b.1, a.2 + b.2)) ((0 : ℚ), (0 : ℚ))
    let l : ℚ := (c2.length : ℚ)
    ([], some ((r1.1 / l) ^ 2 + (r1.2 / l) ^ 2))
  else (c2, none)

/-- Run the decimator over a stream of pairs, collecting emitted powers. -/
def decimFeed : List (ℚ × ℚ) → List ℚ → List (ℚ × ℚ) →
    List (ℚ × ℚ) × List ℚ
  | cur, out, [] => (cur, out)
  | cur, out, p :: ps =>
    let r := decimStep cur p
    decimFeed r.1 (out ++ r.2.toList) ps

/-! ### Byte / bit-stream helpers for the synthetic round-trip -/

/-- The 8 bits of a byte, most significant first. -/
def byteBits (b : Nat) : List Bool :=
  [b.testBit 7, b.testBit 6, b.testBit 5, b.testBit 4,
   b.testBit 3, b.testBit 2, b.testBit 1, b.testBit 0]

/-- A byte sequence as a bit stream, each byte MSB-first. -/
def bytesToBits (bs : List Nat) : List Bool := bs.flatMap byteBits

/-- Reassemble the 8 bits of a byte exactly the way the `message` loop
does. -/
def rebyte (b : Nat) : Nat :=
  (byteBits b).foldl (fun acc bit => (acc * 2 + (if bit then 1 else 0)) % 256) 0

/-- The synthetic symbol encoding of one bit described by the spec: a pair
of runs of `peak_dur` (10) power samples, low-then-high for a `1` and
high-then-low for a `0`.  The low level is power 0 and the high level
power 9025 = 95², values at which `f32` evaluation of the pipeline is
exact. -/
def encodeBitPow (b : Bool) : List ℚ :=
  if b then List.replicate 10 (0 : ℚ) ++ List.replicate 10 (9025 : ℚ)
  else List.replicate 10 (9025 : ℚ) ++ List.replicate 10 (0 : ℚ)

/-- The synthetic power-sample stream of a bit stream. -/
def powersOfBits (bs : List Bool) : List ℚ := bs.flatMap encodeBitPow

/-! ### The devices.rs model -/

/-- `enum DeviceType` from devices.rs. -/
inductive DeviceType
  | Door
  | Motion
  | Unknown
  deriving DecidableEq

/-- A whitespace character; Rust's `char::is_whitespace` covers the Unicode
White_Space set, abridged here to its ASCII part (all claim inputs are
ASCII). -/
def isWSChar (c : Char) : Bool :=
  c == ' ' || c == '\t' || c == '\n' || c == '\x0b' || c == '\x0c' || c == '\r'

/-- `str::split_whitespace` from the Rust standard library: maximal runs of
non-whitespace characters, empty runs skipped. -/
def splitWhitespaceAux : List Char → List Char → List (List Char)
  | [], acc => if acc.isEmpty then [] else [acc.reverse]
  | c :: cs, acc =>
    if isWSChar c then
      if acc.isEmpty then splitWhitespaceAux cs []
      else acc.reverse :: splitWhitespaceAux cs []
    else splitWhitespaceAux cs (c :: acc)

/-- `str::split_whitespace`, whole-string entry point. -/
def splitWhitespace (cs : List Char) : List (List Char) :=
  splitWhitespaceAux cs []

/-- The value of one hexadecimal digit, when the character is one. -/
def hexDigitVal (c : Char) : Option Nat :=
  if '0' ≤ c ∧ c ≤ '9' then some (c.toNat - '0'.toNat)
  else if 'a' ≤ c ∧ c ≤ 'f' then some (c.toNat - 'a'.toNat + 10)
  else if 'A' ≤ c ∧ c ≤ 'F' then some (c.toNat - 'A'.toNat + 10)
  else none

/-- `u32::from_str_radix(s, 16)` from the Rust standard library: an optional
leading `+`, then at least one hexadecimal digit, value below 2^32;
`none` models `Err`. -/
def fromStrRadix16 (cs : List Char) : Option Nat :=
  let ds := match cs with | '+' :: t => t | other => other
  if ds.isEmpty then none
  else
    (ds.foldl (fun acc c => acc.bind fun a => (hexDigitVal c).map fun d => 16 * a + d)
        (some 0)).bind
      fun v => if v < 2 ^ 32 then some v else none

/-- ASCII lowercasing, the fragment of `str::to_lowercase` the device types
need. -/
def toLowerChar (c : Char) : Char :=
  if 'A' ≤ c ∧ c ≤ 'Z' then Char.ofNat (c.toNat + 32) else c

/-- `DeviceType::from_str` from devices.rs: case-insensitive `door` or
`motion`; anything else is an `io::Error` (`none`). -/
def parseDeviceType (cs : List Char) : Option DeviceType :=
  let l := cs.map toLowerChar
  if l = ['d', 'o', 'o', 'r'] then some .Door
  else if l = ['m', 'o', 't', 'i', 'o', 'n'] then some .Motion
  else none

/-- The outcome of processing one line inside `DeviceStore::load`:
a parsed entry, an `io::Error` propagated by `?` (unknown device type), or a
panic from one of the three `expect` calls. -/
inductive LineOutcome
  | entry (id : Nat) (ty : DeviceType)
  | errUnknownType
  | panicked
  deriving DecidableEq

/-- One iteration of the line loop in `DeviceStore::load` (devices.rs):
split the line on whitespace, `expect` a first field, `expect` it to parse
base-16, `expect` a second field, then `parse()?` it as a device type. -/
def loadLine (cs : List Char) : LineOutcome :=
  match splitWhitespace cs with
  | [] => .panicked
  | f :: rest =>
    match fromStrRadix16 f with
    | none => .panicked
    | some id =>
      match rest with
      | [] => .panicked
      | t :: _ =>
        match parseDeviceType t with
        | none => .errUnknownType
        | some ty => .entry id ty

/-- The result of `DeviceStore::load`: the parsed entries in line order
(the source inserts them into a `HashMap`, later entries overwriting
earlier ids; the claims do not depend on that), an `io::Error` return, or a
panic. -/
inductive LoadOutcome
  | ok (entries : List (Nat × DeviceType))
  | err
  | panicked
  deriving DecidableEq

/-- `DeviceStore::load` over a list of already-read lines: process lines in
order, aborting at the first panic or error. -/
def load : List (List Char) → LoadOutcome
  | [] => .ok []
  | l :: ls =>
    match loadLine l with
    | .panicked => .panicked
    | .errUnknownType => .err
    | .entry id ty =>
      match load ls with
      | .ok es => .ok ((id, ty) :: es)
      | other => other

/-! ### Concrete data for the synthetic round-trip check

The frame `[0x12, 0x34, 0x56, 0x20]` has CRC 0x9F50.  The spec's synthetic
encoding of `0xFE ++ frame ++ crc` is 56 bits, i.e. 1120 power samples.  The
stream is processed below in 14 four-bit chunks; the states reached after
each chunk were computed with the definitions above and are verified by the
`c2Chunk*` theorems. -/

def c2Bits1 : List Bool := [true, true, true, true]
def c2Bits2 : List Bool := [true, true, true, false]
def c2Bits3 : List Bool := [false, false, false, true]
def c2Bits4 : List Bool := [false, false, true, false]
def c2Bits5 : List Bool := [false, false, true, true]
def c2Bits6 : List Bool := [false, true, false, false]
def c2Bits7 : List Bool := [false, true, false, true]
def c2Bits8 : List Bool := [false, true, true, false]
def c2Bits9 : List Bool := [false, false, true, false]
def c2Bits10 : List Bool := [false, false, false, false]
def c2Bits11 : List Bool := [true, false, false, true]
def c2Bits12 : List Bool := [true, true, true, true]
def c2Bits13 : List Bool := [false, true, false, true]
def c2Bits14 : List Bool := [false, false, false, false]

def c2St1 : PipeState := ⟨[((0 : ℚ), (0 : ℚ))], [(0 : ℚ), (0 : ℚ), (0 : ℚ), (0 : ℚ), (0 : ℚ), (0 : ℚ), (0 : ℚ), (0 : ℚ), (0 : ℚ), (0 : ℚ), (9025 : ℚ), (9025 : ℚ), (9025 : ℚ), (9025 : ℚ), (9025 : ℚ), (9025 : ℚ), (9025 : ℚ), (9025 : ℚ), (9025 : ℚ), (9025 : ℚ), (0 : ℚ), (0 : ℚ), (0 : ℚ), (0 : ℚ), (0 : ℚ), (0 : ℚ), (0 : ℚ), (0 : ℚ), (0 : ℚ), (0 : ℚ), (9025 : ℚ), (9025 : ℚ), (9025 : ℚ), (9025 : ℚ), (9025 : ℚ), (9025 : ℚ), (9025 : ℚ), (9025 : ℚ), (9025 : ℚ), (9025 : ℚ), (0 : ℚ), (0 : ℚ), (0 : ℚ), (0 : ℚ), (0 : ℚ), (0 : ℚ), (0 : ℚ), (0 : ℚ), (0 : ℚ), (0 : ℚ), (9025 : ℚ), (9025 : ℚ), (9025 : ℚ), (9025 : ℚ), (9025 : ℚ), (9025 : ℚ), (9025 : ℚ), (9025 : ℚ), (9025 : ℚ), (9025 : ℚ), (0 : ℚ), (0 : ℚ), (0 : ℚ), (0 : ℚ), (0 : ℚ), (0 : ℚ), (0 : ℚ), (0 : ℚ), (0 : ℚ), (0 : ℚ), (9025 : ℚ), (9025 : ℚ), (9025 : ℚ), (9025 : ℚ), (9025 : ℚ), (9025 : ℚ), (9025 : ℚ), (9025 : ℚ), (9025 : ℚ), (9025 : ℚ)], ⟨true, 0⟩, ⟨false, 0⟩, true, []⟩
def c2St2 : PipeState := ⟨[((0 : ℚ), (0 : ℚ))], [(0 : ℚ), (0 : ℚ), (9025 : ℚ), (9025 : ℚ), (9025 : ℚ), (9025 : ℚ), (9025 : ℚ), (9025 : ℚ), (9025 : ℚ), (9025 : ℚ), (9025 : ℚ), (9025 : ℚ), (9025 : ℚ), (9025 : ℚ), (9025 : ℚ), (9025 : ℚ), (9025 : ℚ), (9025 : ℚ), (9025 : ℚ), (9025 : ℚ), (9025 : ℚ), (9025 : ℚ), (0 : ℚ), (0 : ℚ), (0 : ℚ), (0 : ℚ), (0 : ℚ), (0 : ℚ), (0 : ℚ), (0 : ℚ), (0 : ℚ), (0 : ℚ)], ⟨true, 10⟩, ⟨false, 8⟩, true, [false, true, false, true, false, true, false, true, false, true, false, true]⟩
def c2St3 : PipeState := ⟨[((0 : ℚ), (0 : ℚ))], [(0 : ℚ), (0 : ℚ), (9025 : ℚ), (9025 : ℚ), (9025 : ℚ), (9025 : ℚ), (9025 : ℚ), (9025 : ℚ), (9025 : ℚ), (9025 : ℚ), (9025 : ℚ), (9025 : ℚ), (9025 : ℚ), (9025 : ℚ), (9025 : ℚ), (9025 : ℚ), (9025 : ℚ), (9025 : ℚ), (9025 : ℚ), (9025 : ℚ), (9025 : ℚ), (9025 : ℚ), (0 : ℚ), (0 : ℚ), (0 : ℚ), (0 : ℚ), (0 : ℚ), (0 : ℚ), (0 : ℚ), (0 : ℚ), (0 : ℚ), (0 : ℚ), (9025 : ℚ), (9025 : ℚ), (9025 : ℚ), (9025 : ℚ), (9025 : ℚ), (9025 : ℚ), (9025 : ℚ), (9025 : ℚ), (9025 : ℚ), (9025 : ℚ), (0 : ℚ), (0 : ℚ), (0 : ℚ), (0 : ℚ), (0 : ℚ), (0 : ℚ), (0 : ℚ), (0 : ℚ), (0 : ℚ), (0 : ℚ), (9025 : ℚ), (9025 : ℚ), (9025 : ℚ), (9025 : ℚ), (9025 : ℚ), (9025 : ℚ), (9025 : ℚ), (9025 : ℚ), (9025 : ℚ), (9025 : ℚ), (0 : ℚ), (0 : ℚ), (0 : ℚ), (0 : ℚ), (0 : ℚ), (0 : ℚ), (0 : ℚ), (0 : ℚ), (0 : ℚ), (0 : ℚ), (9025 : ℚ), (9025 : ℚ), (9025 : ℚ), (9025 : ℚ), (9025 : ℚ), (9025 : ℚ), (9025 : ℚ), (9025 : ℚ), (9025 : ℚ), (9025 : ℚ), (0 : ℚ), (0 : ℚ), (0 : ℚ), (0 : ℚ), (0 : ℚ), (0 : ℚ), (0 : ℚ), (0 : ℚ), (0 : ℚ), (0 : ℚ), (0 : ℚ), (0 : ℚ), (0 : ℚ), (0 : ℚ), (0 : ℚ), (0 : ℚ), (0 : ℚ), (0 : ℚ), (0 : ℚ), (0 : ℚ), (9025 : ℚ), (9025 : ℚ), (9025 : ℚ), (9025 : ℚ), (9025 : ℚ), (9025 : ℚ), (9025 : ℚ), (9025 : ℚ), (9025 : ℚ), (9025 : ℚ)], ⟨true, 10⟩, ⟨false, 8⟩, true, [false, true, false, true, false, true, false, true, false, true, false, true]⟩
def c2St4 : PipeState := ⟨[((0 : ℚ), (0 : ℚ))], [(0 : ℚ), (0 : ℚ), (0 : ℚ), (0 : ℚ), (9025 : ℚ), (9025 : ℚ), (9025 : ℚ), (9025 : ℚ), (9025 : ℚ), (9025 : ℚ), (9025 : ℚ), (9025 : ℚ), (9025 : ℚ), (9025 : ℚ), (0 : ℚ), (0 : ℚ), (0 : ℚ), (0 : ℚ), (0 : ℚ), (0 : ℚ), (0 : ℚ), (0 : ℚ), (0 : ℚ), (0 : ℚ), (0 : ℚ), (0 : ℚ), (0 : ℚ), (0 : ℚ), (0 : ℚ), (0 : ℚ), (0 : ℚ), (0 : ℚ), (0 : ℚ), (0 : ℚ), (9025 : ℚ), (9025 : ℚ), (9025 : ℚ), (9025 : ℚ), (9025 : ℚ), (9025 : ℚ), (9025 : ℚ), (9025 : ℚ), (9025 : ℚ), (9025 : ℚ), (9025 : ℚ), (9025 : ℚ), (9025 : ℚ), (9025 : ℚ), (9025 : ℚ), (9025 : ℚ), (9025 : ℚ), (9025 : ℚ), (9025 : ℚ), (9025 : ℚ), (0 : ℚ), (0 : ℚ), (0 : ℚ), (0 : ℚ), (0 : ℚ), (0 : ℚ), (0 : ℚ), (0 : ℚ), (0 : ℚ), (0 : ℚ)], ⟨true, 20⟩, ⟨false, 6⟩, true, [false, true, false, true, false, true, false, true, false, true, false, true, false, true, false, true, false, true, false, true, false, true]⟩
def c2St5 : PipeState := ⟨[((0 : ℚ), (0 : ℚ))], [(0 : ℚ), (0 : ℚ), (0 : ℚ), (0 : ℚ), (0 : ℚ), (0 : ℚ), (9025 : ℚ), (9025 : ℚ), (9025 : ℚ), (9025 : ℚ), (9025 : ℚ), (9025 : ℚ), (9025 : ℚ), (9025 : ℚ), (9025 : ℚ), (9025 : ℚ)], ⟨true, 10⟩, ⟨false, 4⟩, true, [false, true, false, true, false, true, false, true, false, true, false, true, false, true, false, true, false, true, false, true, false, true, false, true, false, true, false, true, false, true, false, true]⟩
def c2St6 : PipeState := ⟨[((0 : ℚ), (0 : ℚ))], [(0 : ℚ), (0 : ℚ), (0 : ℚ), (0 : ℚ), (0 : ℚ), (0 : ℚ), (9025 : ℚ), (9025 : ℚ), (9025 : ℚ), (9025 : ℚ), (9025 : ℚ), (9025 : ℚ), (9025 : ℚ), (9025 : ℚ), (9025 : ℚ), (9025 : ℚ), (9025 : ℚ), (9025 : ℚ), (9025 : ℚ), (9025 : ℚ), (9025 : ℚ), (9025 : ℚ), (9025 : ℚ), (9025 : ℚ), (9025 : ℚ), (9025 : ℚ), (0 : ℚ), (0 : ℚ), (0 : ℚ), (0 : ℚ), (0 : ℚ), (0 : ℚ), (0 : ℚ), (0 : ℚ), (0 : ℚ), (0 : ℚ), (0 : ℚ), (0 : ℚ), (0 : ℚ), (0 : ℚ), (0 : ℚ), (0 : ℚ), (0 : ℚ), (0 : ℚ), (0 : ℚ), (0 : ℚ), (9025 : ℚ), (9025 : ℚ), (9025 : ℚ), (9025 : ℚ), (9025 : ℚ), (9025 : ℚ), (9025 : ℚ), (9025 : ℚ), (9025 : ℚ), (9025 : ℚ), (9025 : ℚ), (9025 : ℚ), (9025 : ℚ), (9025 : ℚ), (9025 : ℚ), (9025 : ℚ), (9025 : ℚ), (9025 : ℚ), (9025 : ℚ), (9025 : ℚ), (0 : ℚ), (0 : ℚ), (0 : ℚ), (0 : ℚ), (0 : ℚ), (0 : ℚ), (0 : ℚ), (0 : ℚ), (0 : ℚ), (0 : ℚ), (9025 : ℚ), (9025 : ℚ), (9025 : ℚ), (9025 : ℚ), (9025 : ℚ), (9025 : ℚ), (9025 : ℚ), (9025 : ℚ), (9025 : ℚ), (9025 : ℚ), (0 : ℚ), (0 : ℚ), (0 : ℚ), (0 : ℚ), (0 : ℚ), (0 : ℚ), (0 : ℚ), (0 : ℚ), (0 : ℚ), (0 : ℚ)], ⟨true, 10⟩, ⟨false, 4⟩, true, [false, true, false, true, false, true, false, true, false, true, false, true, false, true, false, true, false, true, false, true, false, true, false, true, false, true, false, true, false, true, false, true]⟩
def c2St7 : PipeState := ⟨[((0 : ℚ), (0 : ℚ))], [(9025 : ℚ), (9025 : ℚ), (9025 : ℚ), (9025 : ℚ), (9025 : ℚ), (9025 : ℚ), (9025 : ℚ), (9025 : ℚ), (9025 : ℚ), (9025 : ℚ), (9025 : ℚ), (9025 : ℚ), (9025 : ℚ), (9025 : ℚ), (9025 : ℚ), (9025 : ℚ), (9025 : ℚ), (9025 : ℚ), (0 : ℚ), (0 : ℚ), (0 : ℚ), (0 : ℚ), (0 : ℚ), (0 : ℚ), (0 : ℚ), (0 : ℚ), (0 : ℚ), (0 : ℚ), (0 : ℚ), (0 : ℚ), (0 : ℚ), (0 : ℚ), (0 : ℚ), (0 : ℚ), (0 : ℚ), (0 : ℚ), (0 : ℚ), (0 : ℚ), (9025 : ℚ), (9025 : ℚ), (9025 : ℚ), (9025 : ℚ), (9025 : ℚ), (9025 : ℚ), (9025 : ℚ), (9025 : ℚ), (9025 : ℚ), (9025 : ℚ)], ⟨false, 20⟩, ⟨true, 2⟩, true, [false, true, false, true, false, true, false, true, false, true, false, true, false, true, false, true, false, true, false, true, false, true, false, true, false, true, false, true, false, true, false, true, false, true, false, true, false, true, false, true, false]⟩
def c2St8 : PipeState := ⟨[((0 : ℚ), (0 : ℚ))], [], ⟨true, 20⟩, ⟨false, 10⟩, true, [false, true, false, true, false, true, false, true, false, true, false, true, false, true, false, true, false, true, false, true, false, true, false, true, false, true, false, true, false, true, false, true, false, true, false, true, false, true, false, true, false, true, false, true, false, true, false, true]⟩
def c2St9 : PipeState := ⟨[((0 : ℚ), (0 : ℚ))], [(9025 : ℚ), (9025 : ℚ), (9025 : ℚ), (9025 : ℚ), (9025 : ℚ), (9025 : ℚ), (9025 : ℚ), (9025 : ℚ), (9025 : ℚ), (9025 : ℚ), (0 : ℚ), (0 : ℚ), (0 : ℚ), (0 : ℚ), (0 : ℚ), (0 : ℚ), (0 : ℚ), (0 : ℚ), (0 : ℚ), (0 : ℚ), (9025 : ℚ), (9025 : ℚ), (9025 : ℚ), (9025 : ℚ), (9025 : ℚ), (9025 : ℚ), (9025 : ℚ), (9025 : ℚ), (9025 : ℚ), (9025 : ℚ), (0 : ℚ), (0 : ℚ), (0 : ℚ), (0 : ℚ), (0 : ℚ), (0 : ℚ), (0 : ℚ), (0 : ℚ), (0 : ℚ), (0 : ℚ), (0 : ℚ), (0 : ℚ), (0 : ℚ), (0 : ℚ), (0 : ℚ), (0 : ℚ), (0 : ℚ), (0 : ℚ), (0 : ℚ), (0 : ℚ), (9025 : ℚ), (9025 : ℚ), (9025 : ℚ), (9025 : ℚ), (9025 : ℚ), (9025 : ℚ), (9025 : ℚ), (9025 : ℚ), (9025 : ℚ), (9025 : ℚ), (9025 : ℚ), (9025 : ℚ), (9025 : ℚ), (9025 : ℚ), (9025 : ℚ), (9025 : ℚ), (9025 : ℚ), (9025 : ℚ), (9025 : ℚ), (9025 : ℚ), (0 : ℚ), (0 : ℚ), (0 : ℚ), (0 : ℚ), (0 : ℚ), (0 : ℚ), (0 : ℚ), (0 : ℚ), (0 : ℚ), (0 : ℚ)], ⟨true, 20⟩, ⟨false, 10⟩, true, [false, true, false, true, false, true, false, true, false, true, false, true, false, true, false, true, false, true, false, true, false, true, false, true, false, true, false, true, false, true, false, true, false, true, false, true, false, true, false, true, false, true, false, true, false, true, false, true]⟩
def c2St10 : PipeState := ⟨[((0 : ℚ), (0 : ℚ))], [(9025 : ℚ), (9025 : ℚ), (0 : ℚ), (0 : ℚ), (0 : ℚ), (0 : ℚ), (0 : ℚ), (0 : ℚ), (0 : ℚ), (0 : ℚ), (0 : ℚ), (0 : ℚ), (9025 : ℚ), (9025 : ℚ), (9025 : ℚ), (9025 : ℚ), (9025 : ℚ), (9025 : ℚ), (9025 : ℚ), (9025 : ℚ), (9025 : ℚ), (9025 : ℚ), (0 : ℚ), (0 : ℚ), (0 : ℚ), (0 : ℚ), (0 : ℚ), (0 : ℚ), (0 : ℚ), (0 : ℚ), (0 : ℚ), (0 : ℚ)], ⟨false, 10⟩, ⟨true, 8⟩, true, [false, true, false, true, false, true, false, true, false, true, false, true, false, true, false, true, false, true, false, true, false, true, false, true, false, true, false, true, false, true, false, true, false, true, false, true, false, true, false, true, false, true, false, true, false, true, false, true, false, true, false, true, false, true, false]⟩
def c2St11 : PipeState := ⟨[((0 : ℚ), (0 : ℚ))], [(9025 : ℚ), (9025 : ℚ), (0 : ℚ), (0 : ℚ), (0 : ℚ), (0 : ℚ), (0 : ℚ), (0 : ℚ), (0 : ℚ), (0 : ℚ), (0 : ℚ), (0 : ℚ), (9025 : ℚ), (9025 : ℚ), (9025 : ℚ), (9025 : ℚ), (9025 : ℚ), (9025 : ℚ), (9025 : ℚ), (9025 : ℚ), (9025 : ℚ), (9025 : ℚ), (0 : ℚ), (0 : ℚ), (0 : ℚ), (0 : ℚ), (0 : ℚ), (0 : ℚ), (0 : ℚ), (0 : ℚ), (0 : ℚ), (0 : ℚ), (0 : ℚ), (0 : ℚ), (0 : ℚ), (0 : ℚ), (0 : ℚ), (0 : ℚ), (0 : ℚ), (0 : ℚ), (0 : ℚ), (0 : ℚ), (9025 : ℚ), (9025 : ℚ), (9025 : ℚ), (9025 : ℚ), (9025 : ℚ), (9025 : ℚ), (9025 : ℚ), (9025 : ℚ), (9025 : ℚ), (9025 : ℚ), (9025 : ℚ), (9025 : ℚ), (9025 : ℚ), (9025 : ℚ), (9025 : ℚ), (9025 : ℚ), (9025 : ℚ), (9025 : ℚ), (9025 : ℚ), (9025 : ℚ), (0 : ℚ), (0 : ℚ), (0 : ℚ), (0 : ℚ), (0 : ℚ), (0 : ℚ), (0 : ℚ), (0 : ℚ), (0 : ℚ), (0 : ℚ), (9025 : ℚ), (9025 : ℚ), (9025 : ℚ), (9025 : ℚ), (9025 : ℚ), (9025 : ℚ), (9025 : ℚ), (9025 : ℚ), (9025 : ℚ), (9025 : ℚ), (0 : ℚ), (0 : ℚ), (0 : ℚ), (0 : ℚ), (0 : ℚ), (0 : ℚ), (0 : ℚ), (0 : ℚ), (0 : ℚ), (0 : ℚ), (0 : ℚ), (0 : ℚ), (0 : ℚ), (0 : ℚ), (0 : ℚ), (0 : ℚ), (0 : ℚ), (0 : ℚ), (0 : ℚ), (0 : ℚ), (9025 : ℚ), (9025 : ℚ), (9025 : ℚ), (9025 : ℚ), (9025 : ℚ), (9025 : ℚ), (9025 : ℚ), (9025 : ℚ), (9025 : ℚ), (9025 : ℚ)], ⟨false, 10⟩, ⟨true, 8⟩, true, [false, true, false, true, false, true, false, true, false, true, false, true, false, true, false, true, false, true, false, true, false, true, false, true, false, true, false, true, false, true, false, true, false, true, false, true, false, true, false, true, false, true, false, true, false, true, false, true, false, true, false, true, false, true, false]⟩
def c2St12 : PipeState := ⟨[((0 : ℚ), (0 : ℚ))], [(9025 : ℚ), (9025 : ℚ), (9025 : ℚ), (9025 : ℚ), (0 : ℚ), (0 : ℚ), (0 : ℚ), (0 : ℚ), (0 : ℚ), (0 : ℚ), (0 : ℚ), (0 : ℚ), (0 : ℚ), (0 : ℚ), (9025 : ℚ), (9025 : ℚ), (9025 : ℚ), (9025 : ℚ), (9025 : ℚ), (9025 : ℚ), (9025 : ℚ), (9025 : ℚ), (9025 : ℚ), (9025 : ℚ), (0 : ℚ), (0 : ℚ), (0 : ℚ), (0 : ℚ), (0 : ℚ), (0 : ℚ), (0 : ℚ), (0 : ℚ), (0 : ℚ), (0 : ℚ), (9025 : ℚ), (9025 : ℚ), (9025 : ℚ), (9025 : ℚ), (9025 : ℚ), (9025 : ℚ), (9025 : ℚ), (9025 : ℚ), (9025 : ℚ), (9025 : ℚ), (0 : ℚ), (0 : ℚ), (0 : ℚ), (0 : ℚ), (0 : ℚ), (0 : ℚ), (0 : ℚ), (0 : ℚ), (0 : ℚ), (0 : ℚ), (9025 : ℚ), (9025 : ℚ), (9025 : ℚ), (9025 : ℚ), (9025 : ℚ), (9025 : ℚ), (9025 : ℚ), (9025 : ℚ), (9025 : ℚ), (9025 : ℚ)], ⟨false, 10⟩, ⟨true, 6⟩, true, [false, true, false, true, false, true, false, true, false, true, false, true, false, true, false, true, false, true, false, true, false, true, false, true, false, true, false, true, false, true, false, true, false, true, false, true, false, true, false, true, false, true, false, true, false, true, false, true, false, true, false, true, false, true, false]⟩
def c2St13 : PipeState := ⟨[((0 : ℚ), (0 : ℚ))], [(0 : ℚ), (0 : ℚ), (0 : ℚ), (0 : ℚ), (0 : ℚ), (0 : ℚ), (9025 : ℚ), (9025 : ℚ), (9025 : ℚ), (9025 : ℚ), (9025 : ℚ), (9025 : ℚ), (9025 : ℚ), (9025 : ℚ), (9025 : ℚ), (9025 : ℚ)], ⟨true, 20⟩, ⟨false, 14⟩, true, [true, false, true, false, true, false, true, false, true, false, true, false, true, false, true, false, true, false, true, false, true, false, true, false, true, false, true, false, true, false, true, false, true, false, true, false, true, false, true, false, true, false, true, false, true, false, true, false, true, false, true, false, true, false, true]⟩
def c2St14 : PipeState := ⟨[((0 : ℚ), (0 : ℚ))], [(0 : ℚ), (0 : ℚ), (0 : ℚ), (0 : ℚ), (0 : ℚ), (0 : ℚ), (9025 : ℚ), (9025 : ℚ), (9025 : ℚ), (9025 : ℚ), (9025 : ℚ), (9025 : ℚ), (9025 : ℚ), (9025 : ℚ), (9025 : ℚ), (9025 : ℚ), (9025 : ℚ), (9025 : ℚ), (9025 : ℚ), (9025 : ℚ), (9025 : ℚ), (9025 : ℚ), (9025 : ℚ), (9025 : ℚ), (9025 : ℚ), (9025 : ℚ), (0 : ℚ), (0 : ℚ), (0 : ℚ), (0 : ℚ), (0 : ℚ), (0 : ℚ), (0 : ℚ), (0 : ℚ), (0 : ℚ), (0 : ℚ), (9025 : ℚ), (9025 : ℚ), (9025 : ℚ), (9025 : ℚ), (9025 : ℚ), (9025 : ℚ), (9025 : ℚ), (9025 : ℚ), (9025 : ℚ), (9025 : ℚ), (0 : ℚ), (0 : ℚ), (0 : ℚ), (0 : ℚ), (0 : ℚ), (0 : ℚ), (0 : ℚ), (0 : ℚ), (0 : ℚ), (0 : ℚ), (9025 : ℚ), (9025 : ℚ), (9025 : ℚ), (9025 : ℚ), (9025 : ℚ), (9025 : ℚ), (9025 : ℚ), (9025 : ℚ), (9025 : ℚ), (9025 : ℚ), (0 : ℚ), (0 : ℚ), (0 : ℚ), (0 : ℚ), (0 : ℚ), (0 : ℚ), (0 : ℚ), (0 : ℚ), (0 : ℚ), (0 : ℚ), (9025 : ℚ), (9025 : ℚ), (9025 : ℚ), (9025 : ℚ), (9025 : ℚ), (9025 : ℚ), (9025 : ℚ), (9025 : ℚ), (9025 : ℚ), (9025 : ℚ), (0 : ℚ), (0 : ℚ), (0 : ℚ), (0 : ℚ), (0 : ℚ), (0 : ℚ), (0 : ℚ), (0 : ℚ), (0 : ℚ), (0 : ℚ)], ⟨true, 20⟩, ⟨false, 14⟩, true, [true, false, true, false, true, false, true, false, true, false, true, false, true, false, true, false, true, false, true, false, true, false, true, false, true, false, true, false, true, false, true, false, true, false, true, false, true, false, true, false, true, false, true, false, true, false, true, false, true, false, true, false, true, false, true]⟩



/-! ## Theorems -/

/-! ### Basic facts about the framer loop -/

theorem framerIter_length_lt (q : List Bool) (hq : q ≠ []) :
    (framerIter q).1.length < q.length := by
  match q with
  | [] => exact absurd rfl hq
  | b :: rest =>
    simp only [framerIter]
    split
    · simp
    · split
      · simp
      · split
        · simp only [List.length_drop, List.length_cons]
          omega
        · split
          · simp only [List.length_drop, List.length_cons]
            omega
          · simp only [List.length_drop, List.length_cons]
            omega

theorem framerLoopAux_exit (n : Nat) (q : List Bool) (h : q.length ≤ n) :
    (framerLoopAux n q).1.length < 7 * 8 := by
  induction n generalizing q with
  | zero =>
    have : q.length = 0 := by omega
    simp [framerLoopAux, this]
  | succ n ih =>
    rw [framerLoopAux]
    split
    · assumption
    · rename_i hge
      have hne : q ≠ [] := by
        intro he
        rw [he] at hge
        simp at hge
      have hlt := framerIter_length_lt q hne
      exact ih _ (by omega)

/-! ### CRC range and bit-twiddling helpers -/

theorem crcRound_lt (c : Nat) : crcRound c < 65536 := by
  unfold crcRound
  split <;> exact Nat.mod_lt _ (by norm_num)

theorem crcUpdateByte_lt (c b : Nat) : crcUpdateByte c b < 65536 := by
  unfold crcUpdateByte
  rw [show (8 : Nat) = 7 + 1 from rfl, Function.iterate_succ_apply']
  exact crcRound_lt _

theorem crc_lt (bs : List Nat) : crc bs < 65536 := by
  unfold crc
  have aux : ∀ (l : List Nat) (c : Nat), c < 65536 →
      l.foldl crcUpdateByte c < 65536 := by
    intro l
    induction l with
    | nil => intro c hc; simpa using hc
    | cons x xs ih => intro c _; exact ih _ (crcUpdateByte_lt c x)
  exact aux bs 0 (by norm_num)

theorem shiftLeft_lor_eq_add (a k b : Nat) (hb : b < 2 ^ k) :
    a <<< k ||| b = a * 2 ^ k + b := by
  rw [Nat.shiftLeft_eq, Nat.mul_comm a (2 ^ k)]
  exact (Nat.mul_add_lt_is_or hb a).symm

theorem id_lor_eq (b0 b1 b2 : Nat) (h1 : b1 < 256) (h2 : b2 < 256) :
    b0 <<< 16 ||| b1 <<< 8 ||| b2 = b0 * 65536 + b1 * 256 + b2 := by
  have e1 : b1 <<< 8 = b1 * 256 := Nat.shiftLeft_eq b1 8
  have h18 : b1 <<< 8 < 2 ^ 16 := by rw [e1]; omega
  have e0 : b0 <<< 16 ||| b1 <<< 8 = b0 * 65536 + b1 * 256 := by
    rw [shiftLeft_lor_eq_add b0 16 _ h18, e1]
    norm_num
  rw [e0]
  have e2 : b0 * 65536 + b1 * 256 = (b0 * 256 + b1) <<< 8 := by
    rw [Nat.shiftLeft_eq]
    ring
  rw [e2, shiftLeft_lor_eq_add _ 8 b2 (by omega), Nat.shiftLeft_eq]

theorem crc_split_lor (c : Nat) :
    (c / 256) <<< 8 ||| c % 256 = c := by
  rw [shiftLeft_lor_eq_add _ 8 _ (by omega)]
  omega


theorem rebyte_eq : ∀ b < 256, rebyte b = b := by decide

theorem byteBits_length (b : Nat) : (byteBits b).length = 8 := rfl

theorem msgBytesAux_chunk (b : Nat) (hb : b < 256) (bs : List Bool) (i : Nat)
    (hi : i % 8 = 0) :
    msgBytesAux (byteBits b ++ bs) i 0 =
      (b :: (msgBytesAux bs (i + 8) 0).1, (msgBytesAux bs (i + 8) 0).2) := by
  have c1 : (i + 1) % 8 = 1 := by omega
  have c2 : (i + 1 + 1) % 8 = 2 := by omega
  have c3 : (i + 1 + 1 + 1) % 8 = 3 := by omega
  have c4 : (i + 1 + 1 + 1 + 1) % 8 = 4 := by omega
  have c5 : (i + 1 + 1 + 1 + 1 + 1) % 8 = 5 := by omega
  have c6 : (i + 1 + 1 + 1 + 1 + 1 + 1) % 8 = 6 := by omega
  have c7 : (i + 1 + 1 + 1 + 1 + 1 + 1 + 1) % 8 = 7 := by omega
  have c8 : i + 1 + 1 + 1 + 1 + 1 + 1 + 1 + 1 = i + 8 := by omega
  have e := rebyte_eq b hb
  simp only [rebyte, byteBits, List.foldl] at e
  simp only [byteBits, List.cons_append, List.nil_append, msgBytesAux,
    hi, c1, c2, c3, c4, c5, c6, c7, c8]
  norm_num
  norm_num at e
  exact e


theorem bytesToBits_length (bs : List Nat) :
    (bytesToBits bs).length = 8 * bs.length := by
  induction bs with
  | nil => simp [bytesToBits]
  | cons b t ih =>
    simp only [bytesToBits, List.flatMap_cons, List.length_append] at ih ⊢
    simp [byteBits_length, ih]
    omega

theorem message_bytes6 (b0 b1 b2 b3 b4 b5 : Nat)
    (h0 : b0 < 256) (h1 : b1 < 256) (h2 : b2 < 256)
    (h3 : b3 < 256) (h4 : b4 < 256) (h5 : b5 < 256) :
    message (bytesToBits [b0, b1, b2, b3, b4, b5]) = [b0, b1, b2, b3, b4, b5] := by
  have hlen : (bytesToBits [b0, b1, b2, b3, b4, b5]).length = 48 := by
    rw [bytesToBits_length]; rfl
  have htake : (bytesToBits [b0, b1, b2, b3, b4, b5]).take 48 =
      bytesToBits [b0, b1, b2, b3, b4, b5] := by
    rw [← hlen, List.take_length]
  rw [message, htake, hlen]
  norm_num
  simp only [bytesToBits, List.flatMap_cons, List.flatMap_nil, List.append_nil]
  have e0 := rebyte_eq b0 h0
  have e1 := rebyte_eq b1 h1
  have e2 := rebyte_eq b2 h2
  have e3 := rebyte_eq b3 h3
  have e4 := rebyte_eq b4 h4
  have e5 := rebyte_eq b5 h5
  simp only [rebyte, byteBits, List.foldl] at e0 e1 e2 e3 e4 e5
  norm_num at e0 e1 e2 e3 e4 e5
  simp [msgBytesAux, msgBytesAux_chunk]
  exact ⟨e0, e1, e2, e3, e4, e5⟩


theorem lor_eq_zero_parts {a b : Nat} (h : a ||| b = 0) : a = 0 ∧ b = 0 := by
  have ht : ∀ i, a.testBit i = false ∧ b.testBit i = false := by
    intro i
    have h2 : (a ||| b).testBit i = false := by rw [h]; exact Nat.zero_testBit i
    rw [Nat.testBit_lor] at h2
    exact ⟨by cases ha : a.testBit i <;> simp [ha] at h2 ⊢,
           by cases hb : b.testBit i <;> simp [hb] at h2 ⊢⟩
  exact ⟨Nat.zero_of_testBit_eq_false fun i => (ht i).1,
         Nat.zero_of_testBit_eq_false fun i => (ht i).2⟩

theorem take4_getD (l : List Nat) (h : 3 < l.length) :
    l.take 4 = [l.getD 0 0, l.getD 1 0, l.getD 2 0, l.getD 3 0] := by
  match l with
  | [] => simp at h
  | [_] => simp at h
  | [_, _] => simp at h
  | [_, _, _] => simp at h
  | a :: b :: c :: d :: t => rfl

theorem framerIter_emit (q : List Bool) (s : HW5800Status)
    (hs : s ∈ (framerIter q).2) :
    ∃ m0 m1 m2 m3 m4 m5 : Nat, m4 < 256 ∧ m5 < 256 ∧
      s.id = m0 * 65536 + m1 * 256 + m2 ∧ s.bits = m3 ∧
      crc [m0, m1, m2, m3] = m4 <<< 8 ||| m5 ∧ m4 ||| m5 ≠ 0 := by
  match q with
  | [] => simp [framerIter] at hs
  | b :: rest =>
    simp only [framerIter] at hs
    split at hs
    · simp at hs
    · split at hs
      · simp at hs
      · split at hs
        · simp at hs
        · split at hs
          · rename_i hb hfe hdeg hcrc
            set m := message ((b :: rest).drop 8) with hm
            obtain ⟨h4, h5⟩ := hcrc
            rw [Option.mem_toList, Option.mem_def] at hs
            rw [HW5800Status.new] at hs
            split at hs
            · rename_i hlen
              injection hs with hs
              subst hs
              refine ⟨m.getD 0 0, m.getD 1 0, m.getD 2 0, m.getD 3 0,
                m.getD 4 0, m.getD 5 0, ?_, ?_, rfl, rfl, ?_, ?_⟩
              · rw [h4]; have := crc_lt (m.take 4); omega
              · rw [h5]; have := crc_lt (m.take 4); omega
              · rw [← take4_getD m hlen, h4, h5, crc_split_lor]
              · intro h0
                obtain ⟨e4, e5⟩ := lor_eq_zero_parts h0
                exact hdeg ⟨e4, e5⟩
            · exact absurd hs (by simp)
          · simp at hs

theorem framerLoopAux_emit (n : Nat) (q : List Bool) (s : HW5800Status)
    (hs : s ∈ (framerLoopAux n q).2) :
    ∃ m0 m1 m2 m3 m4 m5 : Nat, m4 < 256 ∧ m5 < 256 ∧
      s.id = m0 * 65536 + m1 * 256 + m2 ∧ s.bits = m3 ∧
      crc [m0, m1, m2, m3] = m4 <<< 8 ||| m5 ∧ m4 ||| m5 ≠ 0 := by
  induction n generalizing q with
  | zero => simp [framerLoopAux] at hs
  | succ n ih =>
    rw [framerLoopAux] at hs
    split at hs
    · simp at hs
    · simp only [List.mem_append] at hs
      rcases hs with hs | hs
      · exact framerIter_emit q s hs
      · exact ih _ hs


theorem framerQueueAt_zero (q : List Bool) : framerQueueAt 0 q = q := rfl

theorem framerQueueAt_succ (k : Nat) (q : List Bool) :
    framerQueueAt (k + 1) q = framerQueueAt k (framerIter q).1 := by
  simp [framerQueueAt, Function.iterate_succ_apply]

theorem framerIter_emit_frame (q : List Bool) (s : HW5800Status)
    (hs : s ∈ (framerIter q).2) :
    HW5800Status.new (message (q.drop 8)) = some s ∧
    crc ((message (q.drop 8)).take 4) =
      ((message (q.drop 8)).getD 4 0) <<< 8 |||
        ((message (q.drop 8)).getD 5 0) := by
  match q with
  | [] => simp [framerIter] at hs
  | b :: rest =>
    simp only [framerIter] at hs
    split at hs
    · simp at hs
    · split at hs
      · simp at hs
      · split at hs
        · simp at hs
        · split at hs
          · rename_i hb hfe hdeg hcrc
            obtain ⟨h4, h5⟩ := hcrc
            rw [Option.mem_toList, Option.mem_def] at hs
            exact ⟨hs, by rw [h4, h5, crc_split_lor]⟩
          · simp at hs

theorem framerLoopAux_emit_at (n : Nat) (q : List Bool) (s : HW5800Status)
    (hs : s ∈ (framerLoopAux n q).2) :
    ∃ k : Nat, (∀ j, j ≤ k → 7 * 8 ≤ (framerQueueAt j q).length) ∧
      s ∈ (framerIter (framerQueueAt k q)).2 := by
  induction n generalizing q with
  | zero => simp [framerLoopAux] at hs
  | succ n ih =>
    rw [framerLoopAux] at hs
    split at hs
    · simp at hs
    · rename_i hge
      simp only [List.mem_append] at hs
      rcases hs with hs | hs
      · refine ⟨0, ?_, by rwa [framerQueueAt_zero]⟩
        intro j hj
        have : j = 0 := by omega
        rw [this, framerQueueAt_zero]
        omega
      · obtain ⟨k, hk1, hk2⟩ := ih _ hs
        refine ⟨k + 1, ?_, by rwa [framerQueueAt_succ]⟩
        intro j hj
        cases j with
        | zero =>
          rw [framerQueueAt_zero]
          omega
        | succ j2 =>
          rw [framerQueueAt_succ]
          exact hk1 j2 (by omega)

/-- C1: every `Status` delivered to the callback by the framer's scanning
loop is built (by `HW5800Status::new`) from the candidate frame peeked by
`message` at the bit-queue state of the emitting iteration, and that frame
satisfies the CRC check: its CRC16-BUYPASS over the first four bytes equals
`(frame[4] << 8) | frame[5]`; the framer never invokes the callback for a
candidate frame whose CRC check fails. -/
theorem c1_emitted_status_crc_valid (q : List Bool) (s : HW5800Status)
    (hs : s ∈ (framerLoop q).2) :
    ∃ k : Nat,
      (∀ j, j ≤ k → 7 * 8 ≤ (framerQueueAt j q).length) ∧
      s ∈ (framerIter (framerQueueAt k q)).2 ∧
      HW5800Status.new (message ((framerQueueAt k q).drop 8)) = some s ∧
      crc ((message ((framerQueueAt k q).drop 8)).take 4) =
        ((message ((framerQueueAt k q).drop 8)).getD 4 0) <<< 8 |||
          ((message ((framerQueueAt k q).drop 8)).getD 5 0) := by
  obtain ⟨k, hk1, hk2⟩ := framerLoopAux_emit_at q.length q s hs
  obtain ⟨hnew, hcrc⟩ := framerIter_emit_frame _ s hk2
  exact ⟨k, hk1, hk2, hnew, hcrc⟩

theorem c1_witness :
    ∃ k : Nat,
      (∀ j, j ≤ k → 7 * 8 ≤
        (framerQueueAt j
          (bytesToBits [0xFE, 0x12, 0x34, 0x56, 0x20, 0x9F, 0x50])).length) ∧
      HW5800Status.mk 0x123456 0x20 ∈
        (framerIter (framerQueueAt k
          (bytesToBits [0xFE, 0x12, 0x34, 0x56, 0x20, 0x9F, 0x50]))).2 ∧
      HW5800Status.new (message ((framerQueueAt k
          (bytesToBits [0xFE, 0x12, 0x34, 0x56, 0x20, 0x9F, 0x50])).drop 8)) =
        some (HW5800Status.mk 0x123456 0x20) ∧
      crc ((message ((framerQueueAt k
          (bytesToBits [0xFE, 0x12, 0x34, 0x56, 0x20, 0x9F, 0x50])).drop 8)).take 4) =
        ((message ((framerQueueAt k
          (bytesToBits [0xFE, 0x12, 0x34, 0x56, 0x20, 0x9F, 0x50])).drop 8)).getD 4 0)
            <<< 8 |||
          ((message ((framerQueueAt k
            (bytesToBits [0xFE, 0x12, 0x34, 0x56, 0x20, 0x9F, 0x50])).drop 8)).getD 5 0) :=
  c1_emitted_status_crc_valid
    (bytesToBits [0xFE, 0x12, 0x34, 0x56, 0x20, 0x9F, 0x50])
    ⟨0x123456, 0x20⟩ (by decide)

/-- C5 counterexample: one iteration of the scanning loop on a queue of 57
zero bits leaves 56 bits whose head is not `1` (and which do not begin with
0xFE), refuting the claimed per-iteration invariant. -/
theorem c5_counterexample :
    framerIter (List.replicate 57 false) = (List.replicate 56 false, []) ∧
    ¬(((List.replicate 56 false).head? = some true ∧
        messageBegin (List.replicate 56 false) = 0xFE) ∨
      (List.replicate 56 false).length < 7 * 8) := by decide

/-- C5 (amended): when the framer's scanning loop terminates, the bit queue
always holds fewer than 56 bits; individual iterations may leave 56 or more
bits with an arbitrary head. -/
theorem c5_amended_loop_exit (q : List Bool) :
    (framerLoop q).1.length < 7 * 8 :=
  framerLoopAux_exit q.length q (Nat.le_refl _)

/-- C7: when the 0xFE preamble has been matched and popped and the peeked
payload has both `m[4]` and `m[5]` zero, the iteration emits no `Status` and
pops exactly one further bit; consequently every emitted `Status` comes from
a frame with `frame[4] ||| frame[5] ≠ 0`. -/
theorem c7_degenerate_filter :
    (∀ (q : List Bool) (b : Bool) (rest : List Bool), q = b :: rest →
      b = true → messageBegin q = 0xFE →
      (message (q.drop 8)).getD 4 0 = 0 → (message (q.drop 8)).getD 5 0 = 0 →
      framerIter q = ((q.drop 8).drop 1, [])) ∧
    (∀ (q : List Bool) (s : HW5800Status), s ∈ (framerLoop q).2 →
      ∃ m0 m1 m2 m3 m4 m5 : Nat,
        s.id = m0 * 65536 + m1 * 256 + m2 ∧ s.bits = m3 ∧
        crc [m0, m1, m2, m3] = m4 <<< 8 ||| m5 ∧ m4 ||| m5 ≠ 0) := by
  constructor
  · intro q b rest hq hb hfe h4 h5
    subst hq
    subst hb
    simp at h4 h5
    simp [framerIter, hfe, h4, h5]
  · intro q s hs
    obtain ⟨m0, m1, m2, m3, m4, m5, h⟩ := framerLoopAux_emit q.length q s hs
    exact ⟨m0, m1, m2, m3, m4, m5, h.2.2.1, h.2.2.2.1, h.2.2.2.2.1, h.2.2.2.2.2⟩

theorem c7_witness :
    framerIter (bytesToBits [0xFE, 0, 0, 0, 0, 0, 0]) =
      (((bytesToBits [0xFE, 0, 0, 0, 0, 0, 0]).drop 8).drop 1, []) ∧
    (∃ m0 m1 m2 m3 m4 m5 : Nat,
      (HW5800Status.mk 0x123456 0x20).id = m0 * 65536 + m1 * 256 + m2 ∧
      (HW5800Status.mk 0x123456 0x20).bits = m3 ∧
      crc [m0, m1, m2, m3] = m4 <<< 8 ||| m5 ∧ m4 ||| m5 ≠ 0) :=
  ⟨c7_degenerate_filter.1 (bytesToBits [0xFE, 0, 0, 0, 0, 0, 0]) true
      ((bytesToBits [0xFE, 0, 0, 0, 0, 0, 0]).tail) (by decide) rfl
      (by decide) (by decide) (by decide),
   c7_degenerate_filter.2
      (bytesToBits [0xFE, 0x12, 0x34, 0x56, 0x20, 0x9F, 0x50])
      ⟨0x123456, 0x20⟩ (by decide)⟩


theorem framerIter_success (q : List Bool) (b : Bool) (rest : List Bool)
    (hq : q = b :: rest) (hb : b = true) (hfe : messageBegin q = 0xFE)
    (hdeg : ¬((message (q.drop 8)).getD 4 0 = 0 ∧
              (message (q.drop 8)).getD 5 0 = 0))
    (hok4 : (message (q.drop 8)).getD 4 0 =
      crc ((message (q.drop 8)).take 4) / 256)
    (hok5 : (message (q.drop 8)).getD 5 0 =
      crc ((message (q.drop 8)).take 4) % 256) :
    framerIter q =
      ((q.drop 8).drop 48, (HW5800Status.new (message (q.drop 8))).toList) := by
  subst hq
  subst hb
  simp at hdeg hok4 hok5
  rw [hok4, hok5] at hdeg
  have hdeg2 : ¬(crc (List.take 4 (message (List.drop 7 rest))) / 256 = 0 ∧
      crc (List.take 4 (message (List.drop 7 rest))) % 256 = 0) := by
    intro h
    exact hdeg h.1 h.2
  simp [framerIter, hfe, hok4, hok5, hdeg2]

theorem framerLoopAux_nil (n : Nat) : framerLoopAux n [] = ([], []) := by
  cases n <;> simp [framerLoopAux]

theorem framerLoop_single (q : List Bool) (out : List HW5800Status)
    (hlen : 7 * 8 ≤ q.length) (hiter : framerIter q = ([], out)) :
    framerLoop q = ([], out) := by
  rw [framerLoop]
  obtain ⟨n, hn⟩ : ∃ n, q.length = n + 1 := ⟨q.length - 1, by omega⟩
  rw [hn, framerLoopAux, if_neg (by omega), hiter]
  simp [framerLoopAux_nil]

/-- C2 (amended): for every CRC-correct frame whose CRC bytes are not both
zero, placing the bits of `0xFE` followed by the frame directly on the bit
queue and running the framer's scanning loop yields exactly one `Status`,
with `id = (id0 << 16) | (id1 << 8) | id2` and `bits = status`, and consumes
the whole queue. -/
theorem c2_amended_framer_roundtrip (b0 b1 b2 b3 : Nat)
    (h0 : b0 < 256) (h1 : b1 < 256) (h2 : b2 < 256) (h3 : b3 < 256)
    (hc : crc [b0, b1, b2, b3] ≠ 0) :
    framerLoop (bytesToBits [0xFE, b0, b1, b2, b3,
        crc [b0, b1, b2, b3] / 256, crc [b0, b1, b2, b3] % 256]) =
      ([], [⟨b0 <<< 16 ||| b1 <<< 8 ||| b2, b3⟩]) := by
  have hclt : crc [b0, b1, b2, b3] < 65536 := crc_lt _
  set c := crc [b0, b1, b2, b3] with hcdef
  set q := bytesToBits [0xFE, b0, b1, b2, b3, c / 256, c % 256] with hqdef
  set T := bytesToBits [b0, b1, b2, b3, c / 256, c % 256] with hTdef
  have hsplit : q = byteBits 0xFE ++ T := by
    rw [hqdef, hTdef]
    simp [bytesToBits]
  have hlen56 : q.length = 56 := by rw [hqdef, bytesToBits_length]; rfl
  have hlenT : T.length = 48 := by rw [hTdef, bytesToBits_length]; rfl
  have hdrop : q.drop 8 = T := by
    rw [hsplit]
    exact List.drop_left' (byteBits_length 0xFE)
  have htake8 : q.take 8 = byteBits 0xFE := by
    rw [hsplit]
    exact List.take_left' (byteBits_length 0xFE)
  have hbegin : messageBegin q = 0xFE := by
    rw [messageBegin, htake8]
    decide
  have hmsgT : message T = [b0, b1, b2, b3, c / 256, c % 256] := by
    rw [hTdef]
    exact message_bytes6 b0 b1 b2 b3 (c / 256) (c % 256) h0 h1 h2 h3
      (by omega) (by omega)
  have hq : q = true :: ((byteBits 0xFE).tail ++ T) := by
    rw [hsplit]
    rfl
  have hiter : framerIter q = ([], [⟨b0 * 65536 + b1 * 256 + b2, b3⟩]) := by
    rw [framerIter_success q true ((byteBits 0xFE).tail ++ T) hq rfl hbegin
      (by rw [hdrop, hmsgT]; simp [← hcdef]; omega)
      (by rw [hdrop, hmsgT]; simp [← hcdef])
      (by rw [hdrop, hmsgT]; simp [← hcdef])]
    rw [hdrop, hmsgT]
    have hdropT : T.drop 48 = [] := by
      rw [← hlenT]
      exact List.drop_length T
    rw [hdropT]
    simp [HW5800Status.new]
  rw [framerLoop_single q [⟨b0 * 65536 + b1 * 256 + b2, b3⟩] (by omega) hiter,
    id_lor_eq b0 b1 b2 h1 h2]

theorem c2_amended_witness :
    framerLoop (bytesToBits [0xFE, 0x12, 0x34, 0x56, 0x20,
        crc [0x12, 0x34, 0x56, 0x20] / 256, crc [0x12, 0x34, 0x56, 0x20] % 256]) =
      ([], [⟨0x12 <<< 16 ||| 0x34 <<< 8 ||| 0x56, 0x20⟩]) :=
  c2_amended_framer_roundtrip 0x12 0x34 0x56 0x20
    (by decide) (by decide) (by decide) (by decide) (by decide)

theorem c2Chunk1 : feedPow initState [] (powersOfBits c2Bits1) = (c2St1, []) := by decide
theorem c2Chunk2 : feedPow c2St1 [] (powersOfBits c2Bits2) = (c2St2, []) := by decide
theorem c2Chunk3 : feedPow c2St2 [] (powersOfBits c2Bits3) = (c2St3, []) := by decide
theorem c2Chunk4 : feedPow c2St3 [] (powersOfBits c2Bits4) = (c2St4, []) := by decide
theorem c2Chunk5 : feedPow c2St4 [] (powersOfBits c2Bits5) = (c2St5, []) := by decide
theorem c2Chunk6 : feedPow c2St5 [] (powersOfBits c2Bits6) = (c2St6, []) := by decide
theorem c2Chunk7 : feedPow c2St6 [] (powersOfBits c2Bits7) = (c2St7, []) := by decide
theorem c2Chunk8 : feedPow c2St7 [] (powersOfBits c2Bits8) = (c2St8, []) := by decide
theorem c2Chunk9 : feedPow c2St8 [] (powersOfBits c2Bits9) = (c2St9, []) := by decide
theorem c2Chunk10 : feedPow c2St9 [] (powersOfBits c2Bits10) = (c2St10, []) := by decide
theorem c2Chunk11 : feedPow c2St10 [] (powersOfBits c2Bits11) = (c2St11, []) := by decide
theorem c2Chunk12 : feedPow c2St11 [] (powersOfBits c2Bits12) = (c2St12, []) := by decide
theorem c2Chunk13 : feedPow c2St12 [] (powersOfBits c2Bits13) = (c2St13, []) := by decide
theorem c2Chunk14 : feedPow c2St13 [] (powersOfBits c2Bits14) = (c2St14, []) := by decide
theorem c2BitsSplit : bytesToBits [0xFE, 0x12, 0x34, 0x56, 0x20, 0x9F, 0x50] = c2Bits1 ++ (c2Bits2 ++ (c2Bits3 ++ (c2Bits4 ++ (c2Bits5 ++ (c2Bits6 ++ (c2Bits7 ++ (c2Bits8 ++ (c2Bits9 ++ (c2Bits10 ++ (c2Bits11 ++ (c2Bits12 ++ (c2Bits13 ++ (c2Bits14))))))))))))) := by decide

theorem feedPow_append (l1 l2 : List ℚ) (s : PipeState)
    (out : List HW5800Status) :
    feedPow s out (l1 ++ l2) =
      feedPow (feedPow s out l1).1 (feedPow s out l1).2 l2 := by
  induction l1 generalizing s out with
  | nil => simp [feedPow]
  | cons x xs ih =>
    simp only [List.cons_append, feedPow]
    exact ih _ _

theorem powersOfBits_append (a b : List Bool) :
    powersOfBits (a ++ b) = powersOfBits a ++ powersOfBits b := by
  simp [powersOfBits]

theorem feedPow_chunk {s s2 : PipeState} {b : List Bool} (rest : List Bool)
    (h : feedPow s [] (powersOfBits b) = (s2, [])) :
    feedPow s [] (powersOfBits (b ++ rest)) = feedPow s2 [] (powersOfBits rest) := by
  rw [powersOfBits_append, feedPow_append, h]

/-- C2 counterexample: the frame `[0x12, 0x34, 0x56, 0x20]` with its correct
CRC `0x9F50`, encoded exactly as the claim describes — the byte 0xFE followed
by the frame as a bit stream, each bit expanded into a pair of
low-run/high-run symbol runs of `peak_dur` (10) samples — and fed, as the
decimated power samples those runs are made of, through the pipeline from
`averaged_sample` on, produces NO callback at all (the claim demands exactly
one): all
completed runs last at least `peak_dur` samples, so `on_cut` never toggles
and the decoder pushes every run polarity, which strictly alternates and
never forms the 0xFE preamble. -/
theorem c2_counterexample :
    crc [0x12, 0x34, 0x56, 0x20] = 0x9F50 ∧
    (feedPow initState []
        (powersOfBits (bytesToBits [0xFE, 0x12, 0x34, 0x56, 0x20, 0x9F, 0x50]))).2
      = [] ∧
    (feedPow initState []
        (powersOfBits (bytesToBits [0xFE, 0x12, 0x34, 0x56, 0x20, 0x9F, 0x50]))).2.length
      ≠ 1 := by
  have hmain : (feedPow initState []
      (powersOfBits (bytesToBits [0xFE, 0x12, 0x34, 0x56, 0x20, 0x9F, 0x50]))).2
      = [] := by
    rw [c2BitsSplit,
      feedPow_chunk _ c2Chunk1, feedPow_chunk _ c2Chunk2, feedPow_chunk _ c2Chunk3,
      feedPow_chunk _ c2Chunk4, feedPow_chunk _ c2Chunk5, feedPow_chunk _ c2Chunk6,
      feedPow_chunk _ c2Chunk7, feedPow_chunk _ c2Chunk8, feedPow_chunk _ c2Chunk9,
      feedPow_chunk _ c2Chunk10, feedPow_chunk _ c2Chunk11, feedPow_chunk _ c2Chunk12,
      feedPow_chunk _ c2Chunk13, c2Chunk14]
  exact ⟨by decide, hmain, by rw [hmain]; decide⟩



/-- C3 counterexample: in a state that is on cut, with a completed low run of
5 samples (≥ 3, so not spurious), a high sample arrives (a low→high
transition): the decoder appends `false` (0) — the polarity transitioned
FROM — not `true` (1) as the claim states. -/
theorem c3_counterexample :
    ((10 : ℚ) > (5 : ℚ)) ∧
    (PipeState.mk [] [] ⟨true, 0⟩ ⟨false, 5⟩ true []).onCut = true ∧
    (PipeState.mk [] [] ⟨true, 0⟩ ⟨false, 5⟩ true []).cur.hi = false ∧
    ¬((PipeState.mk [] [] ⟨true, 0⟩ ⟨false, 5⟩ true []).cur.dur < 3) ∧
    (trackStep 5 (PipeState.mk [] [] ⟨true, 0⟩ ⟨false, 5⟩ true []) 10).msg
      = [false] ∧
    (trackStep 5 (PipeState.mk [] [] ⟨true, 0⟩ ⟨false, 5⟩ true []) 10).msg
      ≠ [true] := by decide

/-- C3 (amended): for every transition processed while `on_cut` is true, the
bit appended to the bit queue is the polarity of the completed run being
transitioned FROM: a transition from a low run to a high sample appends 0
(false), and a transition from a high run to a low sample appends 1
(true). -/
theorem c3_amended_transition_appends_from (median v : ℚ) (s : PipeState)
    (hcut : s.onCut = true) (hdiff : decide (v > median) ≠ s.cur.hi)
    (hdur : ¬(s.cur.dur < 3)) :
    (trackStep median s v).msg = s.msg ++ [s.cur.hi] := by
  simp [trackStep, hdiff, hdur, transitionF, hcut]

theorem c3_amended_witness :
    (trackStep 5 (PipeState.mk [] [] ⟨true, 0⟩ ⟨false, 5⟩ true []) 10).msg
      = ([] : List Bool) ++ [false] :=
  c3_amended_transition_appends_from 5 10 _ rfl (by decide) (by decide)

/-- C9: when the power window fills to `max_buffer` (128) samples and its
arithmetic mean is below `threshold` (250), the whole window is discarded:
the buffer is emptied and the accumulator, peaks, `on_cut` flag and bit
queue are left unchanged, with no callback. -/
theorem c9_low_energy_window_discard (s : PipeState) (x : ℚ)
    (hlen : s.buffer.length = 127)
    (havg : (s.buffer.sum + x) / 128 < threshold) :
    averagedSample s x = ({ s with buffer := [] }, []) := by
  have hblen : (s.buffer ++ [x]).length = 128 := by
    simp [hlen]
  have hsum : (s.buffer ++ [x]).sum = s.buffer.sum + x := by
    simp
  simp only [averagedSample, hblen, hsum]
  norm_num [maxBuffer]
  intro hge
  exact absurd havg (not_lt.mpr hge)


theorem c9_witness :
    averagedSample
        { initState with buffer := List.replicate 127 (0 : ℚ) } (0 : ℚ) =
      ({ initState with buffer := [] }, []) :=
  c9_low_energy_window_discard _ 0 (by decide) (by decide)

theorem foldl_pair_sum (l : List (ℚ × ℚ)) (a : ℚ × ℚ) :
    l.foldl (fun a b => (a.1 + b.1, a.2 + b.2)) a =
      (a.1 + (l.map Prod.fst).sum, a.2 + (l.map Prod.snd).sum) := by
  induction l generalizing a with
  | nil => simp
  | cons p t ih =>
    simp only [List.foldl_cons, List.map_cons, List.sum_cons, ih]
    rw [Prod.mk.injEq]
    constructor <;> ring

theorem decimFeed_silent (ps : List (ℚ × ℚ)) :
    ∀ (cur : List (ℚ × ℚ)) (out : List ℚ), cur.length + ps.length < 19 →
      decimFeed cur out ps = (cur ++ ps, out) := by
  induction ps with
  | nil => intro cur out _; simp [decimFeed]
  | cons p t ih =>
    intro cur out h
    rw [decimFeed, decimStep]
    have hne : (cur ++ [p]).length ≠ maxCount := by
      simp [maxCount]
      simp at h
      omega
    rw [if_neg hne]
    simp only [Option.toList_none, List.append_nil]
    rw [ih (cur ++ [p]) out (by simp at h ⊢; omega)]
    simp

theorem decimFeed_emit (ps : List (ℚ × ℚ)) :
    ∀ (cur : List (ℚ × ℚ)) (out : List ℚ),
      cur.length + ps.length = 19 → ps ≠ [] →
      decimFeed cur out ps =
        ([], out ++ [((((cur ++ ps).map Prod.fst).sum / 19) ^ 2 +
                     (((cur ++ ps).map Prod.snd).sum / 19) ^ 2)]) := by
  induction ps with
  | nil => intro cur out _ hne; exact absurd rfl hne
  | cons p t ih =>
    intro cur out h _
    rw [decimFeed, decimStep]
    rcases t with _ | ⟨p2, t2⟩
    · have hlen : (cur ++ [p]).length = maxCount := by
        simp [maxCount]
        simp at h
        omega
      rw [if_pos hlen]
      simp only [Option.toList_some]
      rw [decimFeed]
      rw [foldl_pair_sum]
      simp [hlen, maxCount]
    · have hne : (cur ++ [p]).length ≠ maxCount := by
        simp [maxCount]
        simp at h
        omega
      rw [if_neg hne]
      simp only [Option.toList_none, List.append_nil]
      rw [ih (cur ++ [p]) out (by simp at h ⊢; omega) (by simp)]
      simp


theorem addSample_decimStep (s : PipeState) (p : ℚ × ℚ) :
    addSample s p =
      (match decimStep s.current p with
       | (c2, none) => ({ s with current := c2 }, [])
       | (_, some v) => averagedSample { s with current := [] } v) := by
  simp only [addSample, decimStep]
  by_cases h : s.current.length + 1 = maxCount <;> simp [h]

/-- C4 counterexample: from the freshly constructed state (whose decimation
accumulator is seeded with one `(0., 0.)` sample), feeding only 18 input
pairs of `(19, 0)` already emits a power value — 324 = ((0 + 18·19)/19)² —
although the claim says one value is emitted per 19 pairs with nothing in
between. -/
theorem c4_counterexample :
    initState.current = [((0 : ℚ), (0 : ℚ))] ∧
    (List.replicate 18 (((19 : ℚ), (0 : ℚ)))).length < 19 ∧
    (decimFeed initState.current [] (List.replicate 18 ((19 : ℚ), (0 : ℚ)))).2
      = [(324 : ℚ)] ∧
    (decimFeed initState.current [] (List.replicate 18 ((19 : ℚ), (0 : ℚ)))).2
      ≠ [] := by decide

/-- C4 (amended): the decimator emits nothing while the accumulator stays
below `max_count` (19) entries; from an empty accumulator it emits exactly
one value per 19 pairs, equal to `(S_r/19)² + (S_i/19)²` over those pairs;
and from the seeded initial accumulator the first window closes after only
18 pairs, its sums including the seed `(0, 0)`. -/
theorem c4_amended_decimator :
    (∀ (cur : List (ℚ × ℚ)) (out : List ℚ) (ps : List (ℚ × ℚ)),
      cur.length + ps.length < 19 → decimFeed cur out ps = (cur ++ ps, out)) ∧
    (∀ (out : List ℚ) (ps : List (ℚ × ℚ)), ps.length = 19 →
      decimFeed [] out ps =
        ([], out ++ [((ps.map Prod.fst).sum / 19) ^ 2 +
                     ((ps.map Prod.snd).sum / 19) ^ 2])) ∧
    (∀ (out : List ℚ) (ps : List (ℚ × ℚ)), ps.length = 18 →
      decimFeed [((0 : ℚ), (0 : ℚ))] out ps =
        ([], out ++ [((ps.map Prod.fst).sum / 19) ^ 2 +
                     ((ps.map Prod.snd).sum / 19) ^ 2])) := by
  refine ⟨fun cur out ps h => decimFeed_silent ps cur out h, ?_, ?_⟩
  · intro out ps hlen
    rw [decimFeed_emit ps [] out (by simpa using hlen)
      (by intro he; rw [he] at hlen; simp at hlen)]
    simp
  · intro out ps hlen
    rw [decimFeed_emit ps [((0 : ℚ), (0 : ℚ))] out (by simp [hlen])
      (by intro he; rw [he] at hlen; simp at hlen)]
    simp

theorem c4_amended_witness :
    decimFeed [] [] [((19 : ℚ), (0 : ℚ)), ((19 : ℚ), (0 : ℚ)), ((19 : ℚ), (0 : ℚ)),
        ((19 : ℚ), (0 : ℚ)), ((19 : ℚ), (0 : ℚ)), ((19 : ℚ), (0 : ℚ)), ((19 : ℚ), (0 : ℚ)),
        ((19 : ℚ), (0 : ℚ)), ((19 : ℚ), (0 : ℚ)), ((19 : ℚ), (0 : ℚ)), ((19 : ℚ), (0 : ℚ)),
        ((19 : ℚ), (0 : ℚ)), ((19 : ℚ), (0 : ℚ)), ((19 : ℚ), (0 : ℚ)), ((19 : ℚ), (0 : ℚ)),
        ((19 : ℚ), (0 : ℚ)), ((19 : ℚ), (0 : ℚ)), ((19 : ℚ), (0 : ℚ)), ((19 : ℚ), (0 : ℚ))] =
      ([], [] ++ [((((List.replicate 19 ((19 : ℚ), (0 : ℚ))).map Prod.fst).sum / 19) ^ 2 +
                  (((List.replicate 19 ((19 : ℚ), (0 : ℚ))).map Prod.snd).sum / 19) ^ 2)]) := by
  have h := c4_amended_decimator.2.1 [] (List.replicate 19 ((19 : ℚ), (0 : ℚ))) (by decide)
  simpa using h


/-- C8: `HW5800Status::new(m)` panics exactly when `m` holds fewer than 4
bytes; with at least 4 bytes it succeeds, with
`id = (m[0] << 16) | (m[1] << 8) | m[2]` and `bits = m[3]`. -/
theorem c8_status_new :
    (∀ m : List Nat, HW5800Status.new m = none ↔ m.length < 4) ∧
    (∀ m : List Nat, 4 ≤ m.length → (∀ x ∈ m, x < 256) →
      HW5800Status.new m =
        some ⟨(m.getD 0 0) <<< 16 ||| (m.getD 1 0) <<< 8 ||| m.getD 2 0,
              m.getD 3 0⟩) := by
  constructor
  · intro m
    rw [HW5800Status.new]
    split <;> rename_i h <;> simp <;> omega
  · intro m hm hb
    rw [HW5800Status.new, if_pos (by omega)]
    have g1 : m.getD 1 0 < 256 := by
      rw [List.getD_eq_getElem m 0 (by omega)]
      exact hb _ (List.getElem_mem _)
    have g2 : m.getD 2 0 < 256 := by
      rw [List.getD_eq_getElem m 0 (by omega)]
      exact hb _ (List.getElem_mem _)
    rw [id_lor_eq _ _ _ g1 g2]

theorem c8_witness :
    (HW5800Status.new [1, 2] = none ↔ [1, 2].length < 4) ∧
    HW5800Status.new [0xAB, 0xCD, 0xEF, 0x20] =
      some ⟨0xAB <<< 16 ||| 0xCD <<< 8 ||| 0xEF, 0x20⟩ :=
  ⟨c8_status_new.1 [1, 2],
   c8_status_new.2 [0xAB, 0xCD, 0xEF, 0x20] (by decide) (by decide)⟩

/-- C6: with 57 bits on the queue — the 0xFE preamble followed by 49 zero
bits — the framer matches and pops the preamble, leaving 49 bits (not a
multiple of 8), and `message` then returns SEVEN bytes, not six: the loop
pushes a trailing partial-byte accumulator, so the source's
`debug_assert_eq!(m.len(), 6)` fails on this reachable state (the peek
itself pops nothing, as the claim says). -/
theorem c6_message_assert_violation :
    (bytesToBits [0xFE] ++ List.replicate 49 false).length = 57 ∧
    (bytesToBits [0xFE] ++ List.replicate 49 false).head? = some true ∧
    messageBegin (bytesToBits [0xFE] ++ List.replicate 49 false) = 0xFE ∧
    48 ≤ ((bytesToBits [0xFE] ++ List.replicate 49 false).drop 8).length ∧
    (message ((bytesToBits [0xFE] ++ List.replicate 49 false).drop 8)).length
      = 7 := by decide

/-- C10: `DeviceStore::load` panics (instead of returning `Err`) on an empty
line, on a line whose first whitespace-separated field does not parse as
base-16, and on a non-empty line with only one field. -/
theorem c10_load_panics :
    load [[]] = LoadOutcome.panicked ∧
    (∀ (cs f : List Char) (rest : List (List Char)),
      splitWhitespace cs = f :: rest → fromStrRadix16 f = none →
      load [cs] = LoadOutcome.panicked) ∧
    (∀ (cs f : List Char), splitWhitespace cs = [f] →
      load [cs] = LoadOutcome.panicked) := by
  refine ⟨by decide, ?_, ?_⟩
  · intro cs f rest hsplit hhex
    simp [load, loadLine, hsplit, hhex]
  · intro cs f hsplit
    rcases h : fromStrRadix16 f with _ | id <;>
      simp [load, loadLine, hsplit, h]

theorem c10_witness :
    load [['z', 'z', ' ', 'd']] = LoadOutcome.panicked ∧
    load [['1', 'a']] = LoadOutcome.panicked :=
  ⟨c10_load_panics.2.1 ['z', 'z', ' ', 'd'] ['z', 'z'] [['d']]
      (by decide) (by decide),
   c10_load_panics.2.2 ['1', 'a'] ['1', 'a'] (by decide)⟩

/-- Sanity anchor for the CRC model: the standard CRC-16/BUYPASS check value
over the ASCII bytes of "123456789" is 0xFEE8. -/
theorem crc_check_value :
    crc [0x31, 0x32, 0x33, 0x34, 0x35, 0x36, 0x37, 0x38, 0x39] = 0xFEE8 := by
  decide

end Hw5800
